import Mathlib

/-!
Verification of the `AppointmentType` data model
(`src/BACKEND_MODEL_UPDATE.py`, a Django model declaration) and of the
catalog repository contract described in the specification.

The record and its column constraints (max lengths, defaults, the global
`unique=True` on `code`, and `unique_together = [('tenant_id', 'code')]`)
are embedded from the source file.  The repository operations
(Create / Update / Deactivate / List) are not present in the repository's
source — only the model declaration is — so they are modelled from the
specification's component contract (§4.1), with the storage engine's
enforcement of the declared column constraints made explicit.

Timestamps are modelled as natural numbers supplied by a monotone clock;
decimals are modelled as integers in cents; UUIDs as strings.
-/

/-- The `AppointmentType` row, embedded from the Django model declaration:
`tenant_id` (UUIDField, modelled as a string), `name` (CharField max 100),
`code` (CharField max 50, globally unique), `description` (TextField,
nullable), `duration_default` (PositiveIntegerField, default 15, modelled
as `Nat`), `base_consultation_fee` (DecimalField, default 0.00, modelled
as integer cents), `is_active` (BooleanField, default true), `color`
(CharField max 7, default "#3b82f6"), `created_at` (auto_now_add) and
`updated_at` (auto_now), modelled as `Nat` clock readings.  `id` is the
storage-generated surrogate key. -/
structure AppointmentType where
  id : Nat
  tenant_id : String
  name : String
  code : String
  description : Option String
  duration_default : Nat
  base_consultation_fee : Int
  is_active : Bool
  color : String
  created_at : Nat
  updated_at : Nat
deriving DecidableEq, Repr

/-- Embedded from `AppointmentType.__str__`:
`return f"{self.name} ({self.code})"`. -/
def AppointmentType.str (r : AppointmentType) : String :=
  r.name ++ " (" ++ r.code ++ ")"

/-- Errors surfaced by the repository operations (spec §7), plus the
storage engine's rejection of values exceeding a declared column length. -/
inductive DbError where
  | constraintViolation
  | notFound
  | dataError
deriving DecidableEq, Repr

/-- The state of the `appointment_types` table: its rows, the next surrogate
identifier the storage layer will hand out, and the time of the last write
(used to state clock monotonicity). -/
structure TableState where
  rows : List AppointmentType
  nextId : Nat
  time : Nat
deriving DecidableEq, Repr

/-- Column constraints declared on the model: `name` is `CharField(max_length=100)`,
`code` is `CharField(max_length=50)`, `color` is `CharField(max_length=7)`. -/
def RowOk (r : AppointmentType) : Prop :=
  r.name.length ≤ 100 ∧ r.code.length ≤ 50 ∧ r.color.length ≤ 7

instance (r : AppointmentType) : Decidable (RowOk r) := by
  unfold RowOk; infer_instance

/-- True when some row already carries this `code` (the model's global
`unique=True` on `code`). -/
def codeExists (rows : List AppointmentType) (c : String) : Bool :=
  rows.any (fun r => r.code == c)

/-- True when some row already carries this `(tenant_id, code)` pair
(the model's `unique_together = [('tenant_id', 'code')]`). -/
def pairExists (rows : List AppointmentType) (t c : String) : Bool :=
  rows.any (fun r => r.tenant_id == t && r.code == c)

/-- Input to `Create`: `tenant_id`, `name` and `code` are required; the
remaining fields are optional and fall back to the defaults declared on the
model (`description` null, `duration_default` 15, `base_consultation_fee`
0.00, `is_active` true, `color` "#3b82f6"). -/
structure CreateInput where
  tenant_id : String
  name : String
  code : String
  description : Option String := none
  duration_default : Option Nat := none
  base_consultation_fee : Option Int := none
  is_active : Option Bool := none
  color : Option String := none
deriving DecidableEq, Repr

/-- The row that `Create` persists: supplied fields, the model's declared
defaults for unsupplied ones, and `created_at = updated_at = now`
(`auto_now_add` / `auto_now` at first save). -/
def mkRow (s : TableState) (inp : CreateInput) (now : Nat) : AppointmentType :=
  { id := s.nextId
    tenant_id := inp.tenant_id
    name := inp.name
    code := inp.code
    description := inp.description
    duration_default := inp.duration_default.getD 15
    base_consultation_fee := inp.base_consultation_fee.getD 0
    is_active := inp.is_active.getD true
    color := inp.color.getD "#3b82f6"
    created_at := now
    updated_at := now }

/-- Modelled from the spec: `Create(tenant_id, name, code, …)` (§4.1) —
the repository code is not in the repository's source, only the model
declaration is.  Fails with `ConstraintViolation` when `code` is taken
globally or the `(tenant_id, code)` pair is taken (the two uniqueness
constraints declared on the model); the storage layer rejects values
exceeding a declared column length; otherwise persists a new row with
`created_at`/`updated_at` set to the current time and returns the new
identifier with the new state. -/
def create (s : TableState) (inp : CreateInput) (now : Nat) :
    Except DbError (TableState × Nat) :=
  if codeExists s.rows inp.code || pairExists s.rows inp.tenant_id inp.code then
    .error .constraintViolation
  else if RowOk (mkRow s inp now) then
    .ok ({ rows := s.rows ++ [mkRow s inp now], nextId := s.nextId + 1, time := now },
         s.nextId)
  else
    .error .dataError

/-- Modelled from the spec: a `Create` call seen as a step on the table
state — on failure the error is surfaced to the caller and the table is
left unchanged (§5: each operation is an atomic write). -/
def createStep (s : TableState) (inp : CreateInput) (now : Nat) :
    TableState × Except DbError Nat :=
  match create s inp now with
  | .ok (s', newId) => (s', .ok newId)
  | .error e => (s, .error e)

/-- Field changes accepted by `Update`; `none` leaves the field as it is.
`id`, `tenant_id`, `created_at` and `updated_at` are not client-settable. -/
structure UpdateFields where
  name : Option String := none
  code : Option String := none
  description : Option (Option String) := none
  duration_default : Option Nat := none
  base_consultation_fee : Option Int := none
  is_active : Option Bool := none
  color : Option String := none
deriving DecidableEq, Repr

/-- Apply `Update`'s field changes to a row, refreshing `updated_at`
(`auto_now`) and leaving `id`, `tenant_id` and `created_at` untouched. -/
def applyFields (r : AppointmentType) (f : UpdateFields) (now : Nat) :
    AppointmentType :=
  { r with
    name := f.name.getD r.name
    code := f.code.getD r.code
    description := f.description.getD r.description
    duration_default := f.duration_default.getD r.duration_default
    base_consultation_fee := f.base_consultation_fee.getD r.base_consultation_fee
    is_active := f.is_active.getD r.is_active
    color := f.color.getD r.color
    updated_at := now }

/-- The write performed on each stored row by `Update`: the row with the
updated identifier is replaced, every other row is left alone. -/
def setRow (rowId : Nat) (r2 : AppointmentType) (q : AppointmentType) :
    AppointmentType :=
  if q.id == rowId then r2 else q

/-- Modelled from the spec: `Update(id, fields)` (§4.1) — the repository
code is not in the repository's source.  Fails with `NotFound` when no row
has the identifier; enforces the declared uniqueness of `code` against the
other rows and the declared column lengths; otherwise applies the field
changes and refreshes `updated_at`. -/
def update (s : TableState) (rowId : Nat) (f : UpdateFields) (now : Nat) :
    Except DbError TableState :=
  match s.rows.find? (fun r => r.id == rowId) with
  | none => .error .notFound
  | some r =>
    if s.rows.any (fun q => q.id != rowId && q.code == (applyFields r f now).code) then
      .error .constraintViolation
    else if RowOk (applyFields r f now) then
      .ok { rows := s.rows.map (setRow rowId (applyFields r f now))
            nextId := s.nextId
            time := now }
    else
      .error .dataError

/-- The write performed on each stored row by `Deactivate`: the row with
the deactivated identifier gets `is_active := false` and a refreshed
`updated_at`, every other row is left alone. -/
def deactRow (rowId now : Nat) (q : AppointmentType) : AppointmentType :=
  if q.id == rowId then { q with is_active := false, updated_at := now } else q

/-- Modelled from the spec: `Deactivate(id)` (§4.1) — the repository code
is not in the repository's source.  Fails with `NotFound` when no row has
the identifier; otherwise sets `is_active = false` on that row, refreshing
`updated_at` (`auto_now` on save), and deletes nothing. -/
def deactivate (s : TableState) (rowId : Nat) (now : Nat) :
    Except DbError TableState :=
  match s.rows.find? (fun r => r.id == rowId) with
  | none => .error .notFound
  | some _ =>
    .ok { rows := s.rows.map (deactRow rowId now)
          nextId := s.nextId
          time := now }

/-- Modelled from the spec: `List(tenant_id, active_only?)` (§4.1) — the
repository code is not in the repository's source.  Returns the rows of the
tenant, optionally restricted to active ones. -/
def listByTenant (s : TableState) (t : String) (activeOnly : Bool) :
    List AppointmentType :=
  s.rows.filter (fun r => r.tenant_id == t && (!activeOnly || r.is_active))

/-- Modelled from the spec: the reachable table states — the empty table,
grown by successful `Create`, `Update` and `Deactivate` calls under a
monotone clock (§5: short-lived atomic writes; failed calls leave the
state unchanged, so they do not appear). -/
inductive Reach : TableState → Prop where
  | init : Reach { rows := [], nextId := 0, time := 0 }
  | createOk {s s' : TableState} {inp : CreateInput} {now newId : Nat} :
      Reach s → s.time ≤ now → create s inp now = .ok (s', newId) → Reach s'
  | updateOk {s s' : TableState} {rowId : Nat} {f : UpdateFields} {now : Nat} :
      Reach s → s.time ≤ now → update s rowId f now = .ok s' → Reach s'
  | deactivateOk {s s' : TableState} {rowId now : Nat} :
      Reach s → s.time ≤ now → deactivate s rowId now = .ok s' → Reach s'

/-- Two rows that may coexist in the table: distinct surrogate keys and
distinct codes (distinct codes subsume distinct `(tenant_id, code)` pairs). -/
def Distinct (a b : AppointmentType) : Prop :=
  a.id ≠ b.id ∧ a.code ≠ b.code

/-- The table invariant: rows are pairwise distinct in `id` and `code`,
every row satisfies the declared column constraints, no row was written
after the state's clock, and every surrogate key is below the next one. -/
def TableInv (s : TableState) : Prop :=
  s.rows.Pairwise Distinct ∧
  ∀ r ∈ s.rows, RowOk r ∧ r.updated_at ≤ s.time ∧ r.id < s.nextId

/-- The empty table, before any operation. -/
def s0 : TableState := { rows := [], nextId := 0, time := 0 }

/-- The spec's running example input: tenant `T1`, name `Consultation`,
code `consultation`, everything else left to the defaults. -/
def inpC : CreateInput :=
  { tenant_id := "T1", name := "Consultation", code := "consultation" }

/-- The row persisted by creating `inpC` in the empty table at time 5. -/
def rowA : AppointmentType :=
  { id := 0, tenant_id := "T1", name := "Consultation", code := "consultation"
    description := none, duration_default := 15, base_consultation_fee := 0
    is_active := true, color := "#3b82f6", created_at := 5, updated_at := 5 }

/-- The table holding exactly `rowA`. -/
def sA : TableState := { rows := [rowA], nextId := 1, time := 5 }

/-- A second input for tenant `T1` with a fresh code. -/
def inpF : CreateInput :=
  { tenant_id := "T1", name := "Follow up", code := "follow_up" }

/-- The row persisted by creating `inpF` in `sA` at time 6. -/
def rowB : AppointmentType :=
  { id := 1, tenant_id := "T1", name := "Follow up", code := "follow_up"
    description := none, duration_default := 15, base_consultation_fee := 0
    is_active := true, color := "#3b82f6", created_at := 6, updated_at := 6 }

/-- The table holding `rowA` and `rowB`. -/
def sB : TableState := { rows := [rowA, rowB], nextId := 2, time := 6 }

/-- An input whose supplied `color` is not a hex color string — `"red"`
has length 3 ≤ 7, so the declared `max_length=7` constraint accepts it. -/
def inp4 : CreateInput :=
  { tenant_id := "T2", name := "Red", code := "red_type", color := some "red" }

/-- The row persisted by creating `inp4` in the empty table at time 1. -/
def rowRed : AppointmentType :=
  { id := 0, tenant_id := "T2", name := "Red", code := "red_type"
    description := none, duration_default := 15, base_consultation_fee := 0
    is_active := true, color := "red", created_at := 1, updated_at := 1 }

/-- The table holding exactly `rowRed`. -/
def s4 : TableState := { rows := [rowRed], nextId := 1, time := 1 }

/-- A field change renaming `rowA`. -/
def updF : UpdateFields := { name := some "Consult" }

/-- The result of updating row 0 of `sA` with `updF` at time 6. -/
def rowU : AppointmentType :=
  { id := 0, tenant_id := "T1", name := "Consult", code := "consultation"
    description := none, duration_default := 15, base_consultation_fee := 0
    is_active := true, color := "#3b82f6", created_at := 5, updated_at := 6 }

/-- The table holding exactly `rowU`. -/
def sU : TableState := { rows := [rowU], nextId := 1, time := 6 }

/-- The result of deactivating row 0 of `sA` at time 6. -/
def rowD : AppointmentType :=
  { id := 0, tenant_id := "T1", name := "Consultation", code := "consultation"
    description := none, duration_default := 15, base_consultation_fee := 0
    is_active := false, color := "#3b82f6", created_at := 5, updated_at := 6 }

/-- The table holding exactly `rowD`. -/
def sD : TableState := { rows := [rowD], nextId := 1, time := 6 }

/-- A row agreeing with `rowA` on `name` and `code` only. -/
def rowAlt : AppointmentType :=
  { id := 99, tenant_id := "T9", name := "Consultation", code := "consultation"
    description := some "other", duration_default := 30, base_consultation_fee := 500
    is_active := false, color := "red", created_at := 77, updated_at := 88 }

theorem create_ok_elim {s s' : TableState} {inp : CreateInput} {now newId : Nat}
    (h : create s inp now = .ok (s', newId)) :
    codeExists s.rows inp.code = false ∧
    pairExists s.rows inp.tenant_id inp.code = false ∧
    RowOk (mkRow s inp now) ∧
    s' = { rows := s.rows ++ [mkRow s inp now], nextId := s.nextId + 1, time := now } ∧
    newId = s.nextId := by
  unfold create at h
  split at h
  · exact absurd h (by simp)
  · split at h
    · rename_i hdup hok
      rw [Bool.not_eq_true, Bool.or_eq_false_iff] at hdup
      exact ⟨hdup.1, hdup.2, hok, by cases h; exact ⟨rfl, rfl⟩⟩
    · exact absurd h (by simp)

theorem update_ok_elim {s s' : TableState} {rowId : Nat} {f : UpdateFields} {now : Nat}
    (h : update s rowId f now = .ok s') :
    ∃ r, s.rows.find? (fun q => q.id == rowId) = some r ∧
      (s.rows.any (fun q => q.id != rowId && q.code == (applyFields r f now).code)) = false ∧
      RowOk (applyFields r f now) ∧
      s' = { rows := s.rows.map (setRow rowId (applyFields r f now))
             nextId := s.nextId
             time := now } := by
  unfold update at h
  split at h
  · exact absurd h (by simp)
  · rename_i r hfind
    split at h
    · exact absurd h (by simp)
    · split at h
      · rename_i hdup hok
        exact ⟨r, hfind, by simpa using hdup, hok, by cases h; rfl⟩
      · exact absurd h (by simp)

theorem deactivate_ok_elim {s s' : TableState} {rowId now : Nat}
    (h : deactivate s rowId now = .ok s') :
    ∃ r, s.rows.find? (fun q => q.id == rowId) = some r ∧
      s' = { rows := s.rows.map (deactRow rowId now)
             nextId := s.nextId
             time := now } := by
  unfold deactivate at h
  split at h
  · exact absurd h (by simp)
  · rename_i r hfind
    exact ⟨r, hfind, by cases h; rfl⟩

theorem pairwise_update_map {rows : List AppointmentType} {rowId : Nat}
    {r2 : AppointmentType} (hid : r2.id = rowId)
    (hP : rows.Pairwise Distinct)
    (hcode : ∀ q ∈ rows, q.id ≠ rowId → q.code ≠ r2.code) :
    (rows.map (setRow rowId r2)).Pairwise Distinct := by
  induction rows with
  | nil => simp
  | cons a l ih =>
    rcases List.pairwise_cons.mp hP with ⟨ha, hl⟩
    simp only [List.map_cons, List.pairwise_cons]
    refine ⟨?_, ih hl (fun q hq => hcode q (List.mem_cons_of_mem a hq))⟩
    intro b hb
    rcases List.mem_map.mp hb with ⟨q, hq, rfl⟩
    unfold setRow
    by_cases haid : a.id = rowId
    · have hqa : Distinct a q := ha q hq
      have hqid : q.id ≠ rowId := fun h => hqa.1 (haid.trans h.symm)
      rw [if_pos (by simpa using haid), if_neg (by simpa using hqid)]
      exact ⟨fun h => hqid (h.symm.trans hid),
             fun h => hcode q (List.mem_cons_of_mem a hq) hqid h.symm⟩
    · rw [if_neg (by simpa using haid)]
      by_cases hqid : q.id = rowId
      · rw [if_pos (by simpa using hqid)]
        exact ⟨fun h => haid (h.trans hid), fun h => hcode a (List.mem_cons_self a l) haid h⟩
      · rw [if_neg (by simpa using hqid)]
        exact ha q hq

theorem deactRow_fields (rowId now : Nat) (q : AppointmentType) :
    (deactRow rowId now q).id = q.id ∧ (deactRow rowId now q).code = q.code ∧
    (deactRow rowId now q).name = q.name ∧ (deactRow rowId now q).color = q.color ∧
    (deactRow rowId now q).tenant_id = q.tenant_id ∧
    (deactRow rowId now q).created_at = q.created_at := by
  unfold deactRow; split <;> exact ⟨rfl, rfl, rfl, rfl, rfl, rfl⟩

theorem inv_init : TableInv { rows := [], nextId := 0, time := 0 } :=
  ⟨List.Pairwise.nil, by simp⟩

theorem inv_create {s s' : TableState} {inp : CreateInput} {now newId : Nat}
    (hInv : TableInv s) (hnow : s.time ≤ now)
    (h : create s inp now = .ok (s', newId)) : TableInv s' := by
  obtain ⟨hcode, hpair, hok, rfl, -⟩ := create_ok_elim h
  obtain ⟨hpw, hall⟩ := hInv
  unfold codeExists at hcode
  constructor
  · rw [List.pairwise_append]
    refine ⟨hpw, List.pairwise_singleton _ _, ?_⟩
    intro a hain b hbin
    rw [List.mem_singleton] at hbin
    subst hbin
    have hid : a.id < s.nextId := (hall a hain).2.2
    have hca : a.code ≠ inp.code := by
      have h2 := List.any_eq_false.mp hcode a hain
      simpa using h2
    exact ⟨Nat.ne_of_lt hid, hca⟩
  · intro r hr
    rw [List.mem_append] at hr
    rcases hr with hr | hr
    · obtain ⟨hok', hup, hid⟩ := hall r hr
      exact ⟨hok', le_trans hup hnow, Nat.lt_succ_of_lt hid⟩
    · rw [List.mem_singleton] at hr
      subst hr
      exact ⟨hok, le_refl _, Nat.lt_succ_self _⟩

theorem inv_update {s s' : TableState} {rowId : Nat} {f : UpdateFields} {now : Nat}
    (hInv : TableInv s) (hnow : s.time ≤ now)
    (h : update s rowId f now = .ok s') : TableInv s' := by
  obtain ⟨r, hfind, hdup, hok, rfl⟩ := update_ok_elim h
  obtain ⟨hpw, hall⟩ := hInv
  have hrmem : r ∈ s.rows := List.mem_of_find?_eq_some hfind
  have hrid : r.id = rowId := by simpa using List.find?_some hfind
  have hdup' : ∀ q ∈ s.rows, q.id ≠ rowId → q.code ≠ (applyFields r f now).code := by
    intro q hq hqid hcontra
    have h2 := List.any_eq_false.mp hdup q hq
    simp only [Bool.and_eq_true, bne_iff_ne, beq_iff_eq, not_and] at h2
    exact h2 hqid hcontra
  constructor
  · exact pairwise_update_map hrid hpw hdup'
  · intro r' hr'
    rcases List.mem_map.mp hr' with ⟨q, hq, rfl⟩
    unfold setRow
    split
    · exact ⟨hok, le_refl now, (hall r hrmem).2.2⟩
    · obtain ⟨hok', hup, hid⟩ := hall q hq
      exact ⟨hok', le_trans hup hnow, hid⟩

theorem inv_deactivate {s s' : TableState} {rowId now : Nat}
    (hInv : TableInv s) (hnow : s.time ≤ now)
    (h : deactivate s rowId now = .ok s') : TableInv s' := by
  obtain ⟨r, hfind, rfl⟩ := deactivate_ok_elim h
  obtain ⟨hpw, hall⟩ := hInv
  constructor
  · refine List.Pairwise.map _ ?_ hpw
    intro a b hab
    refine ⟨?_, ?_⟩
    · rw [(deactRow_fields rowId now a).1, (deactRow_fields rowId now b).1]
      exact hab.1
    · rw [(deactRow_fields rowId now a).2.1, (deactRow_fields rowId now b).2.1]
      exact hab.2
  · intro r' hr'
    rcases List.mem_map.mp hr' with ⟨q, hq, rfl⟩
    obtain ⟨hok, hup, hid⟩ := hall q hq
    unfold deactRow
    split
    · exact ⟨hok, le_refl now, hid⟩
    · exact ⟨hok, le_trans hup hnow, hid⟩

theorem reach_inv {s : TableState} (h : Reach s) : TableInv s := by
  induction h with
  | init => exact inv_init
  | createOk hs hnow hc ih => exact inv_create ih hnow hc
  | updateOk hs hnow hu ih => exact inv_update ih hnow hu
  | deactivateOk hs hnow hd ih => exact inv_deactivate ih hnow hd

theorem mem_eq_of_find_id {rows : List AppointmentType} (hpw : rows.Pairwise Distinct)
    {rowId : Nat} {r : AppointmentType}
    (hfind : rows.find? (fun q => q.id == rowId) = some r) :
    ∀ q ∈ rows, q.id = rowId → q = r := by
  have hrmem := List.mem_of_find?_eq_some hfind
  have hrid : r.id = rowId := by simpa using List.find?_some hfind
  intro q hq hqid
  by_contra hne
  have hsymm : Symmetric Distinct := fun a b hab => ⟨hab.1.symm, hab.2.symm⟩
  have hd : Distinct q r := List.Pairwise.forall hsymm hpw hq hrmem hne
  exact hd.1 (hqid.trans hrid.symm)

theorem deactRow_idem (rowId now : Nat) (q : AppointmentType) :
    deactRow rowId now (deactRow rowId now q) = deactRow rowId now q := by
  unfold deactRow
  by_cases h : q.id = rowId <;> simp [h]

theorem reach_sA : Reach sA :=
  Reach.createOk Reach.init (Nat.zero_le 5)
    (show create s0 inpC 5 = .ok (sA, 0) from rfl)

theorem reach_sB : Reach sB :=
  Reach.createOk reach_sA (by decide)
    (show create sA inpF 6 = .ok (sB, 1) from rfl)

theorem reach_s4 : Reach s4 :=
  Reach.createOk Reach.init (Nat.zero_le 1)
    (show create s0 inp4 1 = .ok (s4, 0) from rfl)

/-- C1: every reachable table state satisfies both uniqueness invariants at
once — no two rows share a `code` (the global `unique=True` on `code`), and
no two rows share a `(tenant_id, code)` pair (`unique_together`). -/
theorem C1_both_uniqueness_invariants (s : TableState) (hs : Reach s) :
    s.rows.Pairwise (fun a b =>
      a.code ≠ b.code ∧ ¬(a.tenant_id = b.tenant_id ∧ a.code = b.code)) :=
  List.Pairwise.imp (fun hab => ⟨hab.2, fun hp => hab.2 hp.2⟩) (reach_inv hs).1

theorem C1_both_uniqueness_invariants_witness :
    sB.rows.Pairwise (fun a b =>
      a.code ≠ b.code ∧ ¬(a.tenant_id = b.tenant_id ∧ a.code = b.code)) :=
  C1_both_uniqueness_invariants sB reach_sB

/-- C2: if a row with the pair `(T, C)` already exists, a `Create` with the
same tenant and code fails with `ConstraintViolation`, and the table state
is unchanged on that failure. -/
theorem C2_duplicate_pair_create_fails (s : TableState) (inp : CreateInput)
    (now : Nat) (r : AppointmentType) (hr : r ∈ s.rows)
    (_ht : r.tenant_id = inp.tenant_id) (hc : r.code = inp.code) :
    createStep s inp now = (s, .error .constraintViolation) := by
  have hcode : codeExists s.rows inp.code = true := by
    unfold codeExists
    rw [List.any_eq_true]
    exact ⟨r, hr, by simpa using hc⟩
  simp [createStep, create, hcode]

theorem C2_duplicate_pair_create_fails_witness :
    createStep sA inpC 6 = (sA, .error .constraintViolation) :=
  C2_duplicate_pair_create_fails sA inpC 6 rowA (by simp [sA]) rfl rfl

/-- C3: `Display(row)` returns exactly `"{name} ({code})"`, and on a row
named `Consultation` with code `consultation` it returns
`"Consultation (consultation)"`. -/
theorem C3_display_format :
    (∀ r : AppointmentType, r.str = r.name ++ " (" ++ r.code ++ ")") ∧
    rowA.str = "Consultation (consultation)" :=
  ⟨fun _ => rfl, rfl⟩

/-- C10: `Display` depends only on the `name` and `code` fields — any two
rows agreeing on those two fields display identically, whatever the other
fields hold. -/
theorem C10_display_depends_only_on_name_code (r1 r2 : AppointmentType)
    (hn : r1.name = r2.name) (hc : r1.code = r2.code) :
    r1.str = r2.str := by
  unfold AppointmentType.str
  rw [hn, hc]

theorem C10_display_depends_only_on_name_code_witness :
    rowA.str = rowAlt.str :=
  C10_display_depends_only_on_name_code rowA rowAlt rfl rfl

/-- C4 (counterexample): the claim that every row's `color` has exactly 7
characters fails — the model declares `max_length=7`, an upper bound only,
so the reachable state `s4` holds a row whose supplied color `"red"` has
length 3. -/
theorem C4_color_exact_length_counterexample :
    Reach s4 ∧ rowRed ∈ s4.rows ∧ ¬ rowRed.color.length = 7 :=
  ⟨reach_s4, by simp [s4], by decide⟩

/-- C4 (amended): in every reachable state every row's `color` is a text
value of at most 7 characters, defaulting to `"#3b82f6"` when not supplied
at creation; no validation beyond this length bound is applied. -/
theorem C4_color_length_and_default (s : TableState) (hs : Reach s) :
    (∀ r ∈ s.rows, r.color.length ≤ 7) ∧
    (∀ (inp : CreateInput) (now newId : Nat) (s' : TableState),
      inp.color = none → create s inp now = .ok (s', newId) →
      ∀ r ∈ s'.rows, r.id = newId → r.color = "#3b82f6") := by
  constructor
  · intro r hr
    exact ((reach_inv hs).2 r hr).1.2.2
  · intro inp now newId s' hcol hc r hr hid
    obtain ⟨-, -, -, rfl, rfl⟩ := create_ok_elim hc
    rw [List.mem_append] at hr
    rcases hr with hr | hr
    · exact absurd hid (Nat.ne_of_lt ((reach_inv hs).2 r hr).2.2)
    · rw [List.mem_singleton] at hr
      subst hr
      simp [mkRow, hcol]

theorem C4_color_length_and_default_witness :
    rowRed.color.length ≤ 7 ∧ rowA.color = "#3b82f6" :=
  ⟨(C4_color_length_and_default s4 reach_s4).1 rowRed (by simp [s4]),
   (C4_color_length_and_default s0 Reach.init).2 inpC 5 0 sA rfl rfl rowA
     (by simp [sA]) rfl⟩

/-- C5: every row's `duration_default` is a non-negative integer
(`PositiveIntegerField`, embedded as `Nat`), and a row created without a
supplied value gets the declared default 15. -/
theorem C5_duration_nonneg_default (s : TableState) (hs : Reach s) :
    (∀ r ∈ s.rows, (0 : Int) ≤ (r.duration_default : Int)) ∧
    (∀ (inp : CreateInput) (now newId : Nat) (s' : TableState),
      inp.duration_default = none → create s inp now = .ok (s', newId) →
      ∀ r ∈ s'.rows, r.id = newId → r.duration_default = 15) := by
  constructor
  · intro r _
    exact Int.natCast_nonneg _
  · intro inp now newId s' hdur hc r hr hid
    obtain ⟨-, -, -, rfl, rfl⟩ := create_ok_elim hc
    rw [List.mem_append] at hr
    rcases hr with hr | hr
    · exact absurd hid (Nat.ne_of_lt ((reach_inv hs).2 r hr).2.2)
    · rw [List.mem_singleton] at hr
      subst hr
      simp [mkRow, hdur]

theorem C5_duration_nonneg_default_witness :
    (0 : Int) ≤ (rowA.duration_default : Int) ∧ rowA.duration_default = 15 :=
  ⟨(C5_duration_nonneg_default sA reach_sA).1 rowA (by simp [sA]),
   (C5_duration_nonneg_default s0 Reach.init).2 inpC 5 0 sA rfl rfl rowA
     (by simp [sA]) rfl⟩

/-- C6: `created_at` is assigned at creation and never changed by `Update`
or `Deactivate`, while `updated_at` is reassigned on every mutation; at
creation both carry the same current time. -/
theorem C6_timestamp_discipline (s : TableState) (hs : Reach s)
    (inp : CreateInput) (f : UpdateFields) (rowId now newId : Nat)
    (sC sM sK : TableState)
    (hc : create s inp now = .ok (sC, newId))
    (hu : update s rowId f now = .ok sM)
    (hd : deactivate s rowId now = .ok sK) :
    (∀ r ∈ sC.rows, r.id = newId → r.created_at = now ∧ r.updated_at = now) ∧
    sM.rows.map (fun r => (r.id, r.created_at)) =
      s.rows.map (fun r => (r.id, r.created_at)) ∧
    sK.rows.map (fun r => (r.id, r.created_at)) =
      s.rows.map (fun r => (r.id, r.created_at)) ∧
    (∀ r ∈ sM.rows, r.id = rowId → r.updated_at = now) ∧
    (∀ r ∈ sK.rows, r.id = rowId → r.updated_at = now) := by
  obtain ⟨hpw, hall⟩ := reach_inv hs
  refine ⟨?_, ?_, ?_, ?_, ?_⟩
  · intro r hr hid
    obtain ⟨-, -, -, rfl, rfl⟩ := create_ok_elim hc
    rw [List.mem_append] at hr
    rcases hr with hr | hr
    · exact absurd hid (Nat.ne_of_lt (hall r hr).2.2)
    · rw [List.mem_singleton] at hr
      subst hr
      exact ⟨rfl, rfl⟩
  · obtain ⟨r, hfind, hdup, hok, rfl⟩ := update_ok_elim hu
    rw [List.map_map]
    apply List.map_congr_left
    intro q hq
    show ((setRow rowId (applyFields r f now) q).id,
          (setRow rowId (applyFields r f now) q).created_at) = (q.id, q.created_at)
    unfold setRow
    split
    · rename_i hqid
      have hq_eq : q = r := mem_eq_of_find_id hpw hfind q hq (by simpa using hqid)
      subst hq_eq
      rfl
    · rfl
  · obtain ⟨r, hfind, rfl⟩ := deactivate_ok_elim hd
    rw [List.map_map]
    apply List.map_congr_left
    intro q hq
    show ((deactRow rowId now q).id, (deactRow rowId now q).created_at)
          = (q.id, q.created_at)
    rw [(deactRow_fields rowId now q).1, (deactRow_fields rowId now q).2.2.2.2.2]
  · obtain ⟨r, hfind, hdup, hok, rfl⟩ := update_ok_elim hu
    intro r' hr' hid'
    rcases List.mem_map.mp hr' with ⟨q, hq, rfl⟩
    revert hid'
    unfold setRow
    split
    · intro _
      rfl
    · rename_i hqid
      intro hid'
      exact absurd hid' (by simpa using hqid)
  · obtain ⟨r, hfind, rfl⟩ := deactivate_ok_elim hd
    intro r' hr' hid'
    rcases List.mem_map.mp hr' with ⟨q, hq, rfl⟩
    revert hid'
    unfold deactRow
    split
    · intro _
      rfl
    · rename_i hqid
      intro hid'
      exact absurd hid' (by simpa using hqid)

theorem C6_timestamp_discipline_witness :
    (rowB.created_at = 6 ∧ rowB.updated_at = 6) ∧
    sU.rows.map (fun r => (r.id, r.created_at)) =
      sA.rows.map (fun r => (r.id, r.created_at)) ∧
    rowD.updated_at = 6 :=
  have h := C6_timestamp_discipline sA reach_sA inpF updF 0 6 1 sB sU sD rfl rfl rfl
  ⟨h.1 rowB (by simp [sB]) rfl, h.2.1, h.2.2.2.2 rowD (by simp [sD]) rfl⟩

/-- C7: after an `Update` of an existing row under a monotone clock, the
row's `updated_at` is at least its `updated_at` before the `Update`. -/
theorem C7_updated_at_monotone (s s' : TableState) (rowId : Nat)
    (f : UpdateFields) (now : Nat) (hs : Reach s) (hnow : s.time ≤ now)
    (h : update s rowId f now = .ok s')
    (r r2 : AppointmentType) (hr : r ∈ s.rows) (hr2 : r2 ∈ s'.rows)
    (_hid : r.id = rowId) (hid2 : r2.id = rowId) :
    r.updated_at ≤ r2.updated_at := by
  obtain ⟨hpw, hall⟩ := reach_inv hs
  obtain ⟨rf, hfind, hdup, hok, rfl⟩ := update_ok_elim h
  rcases List.mem_map.mp hr2 with ⟨q, hq, rfl⟩
  revert hid2
  unfold setRow
  split
  · intro _
    exact le_trans (hall r hr).2.1 hnow
  · rename_i hqid
    intro hid2
    exact absurd hid2 (by simpa using hqid)

theorem C7_updated_at_monotone_witness : rowA.updated_at ≤ rowU.updated_at :=
  C7_updated_at_monotone sA sU 0 updF 6 reach_sA (by decide) rfl rowA rowU
    (by simp [sA]) (by simp [sU]) rfl rfl

/-- C8: `Deactivate` sets `is_active` to false without removing the row,
and is idempotent — deactivating the already-deactivated row raises no
error and leaves the state exactly as after the first call. -/
theorem C8_deactivate_idempotent (s s' : TableState) (rowId now : Nat)
    (h : deactivate s rowId now = .ok s') :
    (∀ r ∈ s'.rows, r.id = rowId → r.is_active = false) ∧
    s'.rows.length = s.rows.length ∧
    deactivate s' rowId now = .ok s' := by
  obtain ⟨r, hfind, rfl⟩ := deactivate_ok_elim h
  refine ⟨?_, by simp, ?_⟩
  · intro r' hr' hid'
    rcases List.mem_map.mp hr' with ⟨q, hq, rfl⟩
    revert hid'
    unfold deactRow
    split
    · intro _
      rfl
    · rename_i hqid
      intro hid'
      exact absurd hid' (by simpa using hqid)
  · have hcomp : ((fun q : AppointmentType => q.id == rowId) ∘ deactRow rowId now)
        = (fun q : AppointmentType => q.id == rowId) := by
      funext q
      show ((deactRow rowId now q).id == rowId) = (q.id == rowId)
      rw [(deactRow_fields rowId now q).1]
    unfold deactivate
    rw [List.find?_map, hcomp, hfind]
    show Except.ok _ = Except.ok _
    rw [List.map_map]
    simp only [Function.comp_def]
    rw [List.map_congr_left (fun q _ => deactRow_idem rowId now q)]

theorem C8_deactivate_idempotent_witness :
    rowD.is_active = false ∧ sD.rows.length = sA.rows.length ∧
    deactivate sD 0 6 = .ok sD :=
  have h := C8_deactivate_idempotent sA sD 0 6 rfl
  ⟨h.1 rowD (by simp [sD]) rfl, h.2.1, h.2.2⟩

/-- C9: a successful `Create` followed by `List` of the same tenant
includes the created row, with supplied fields as given and unsupplied
fields at the declared defaults: `is_active = true`,
`base_consultation_fee = 0.00`, `color = "#3b82f6"`,
`duration_default = 15`. -/
theorem C9_create_then_list (s s' : TableState) (inp : CreateInput)
    (now newId : Nat)
    (hdur : inp.duration_default = none) (hfee : inp.base_consultation_fee = none)
    (hact : inp.is_active = none) (hcol : inp.color = none)
    (h : create s inp now = .ok (s', newId)) :
    mkRow s inp now ∈ listByTenant s' inp.tenant_id false ∧
    (mkRow s inp now).id = newId ∧ (mkRow s inp now).name = inp.name ∧
    (mkRow s inp now).code = inp.code ∧ (mkRow s inp now).is_active = true ∧
    (mkRow s inp now).base_consultation_fee = 0 ∧
    (mkRow s inp now).color = "#3b82f6" ∧
    (mkRow s inp now).duration_default = 15 := by
  obtain ⟨-, -, -, rfl, rfl⟩ := create_ok_elim h
  refine ⟨?_, rfl, rfl, rfl, ?_, ?_, ?_, ?_⟩
  · unfold listByTenant
    rw [List.mem_filter]
    exact ⟨by simp, by simp [mkRow]⟩
  · simp [mkRow, hact]
  · simp [mkRow, hfee]
  · simp [mkRow, hcol]
  · simp [mkRow, hdur]

theorem C9_create_then_list_witness :
    mkRow s0 inpC 5 ∈ listByTenant sA inpC.tenant_id false ∧
    (mkRow s0 inpC 5).id = 0 ∧ (mkRow s0 inpC 5).name = inpC.name ∧
    (mkRow s0 inpC 5).code = inpC.code ∧ (mkRow s0 inpC 5).is_active = true ∧
    (mkRow s0 inpC 5).base_consultation_fee = 0 ∧
    (mkRow s0 inpC 5).color = "#3b82f6" ∧
    (mkRow s0 inpC 5).duration_default = 15 :=
  C9_create_then_list s0 sA inpC 5 0 rfl rfl rfl rfl rfl
